import Mathlib

/-!
Verification of the Forge agent runtime against its specification.

Shallow embedding of the Go sources:
  internal/llm/client.go        (message model, helper constructors)
  internal/agent/context.go     (token estimation, split point, compaction)
  internal/agent/agent.go       (Agent state, mutators, ReAct loop)
  internal/server/handlers.go   (generateTitle)
  internal/storage/sqlite/sqlite.go (session lookup, message snapshots)

Modelling conventions:
  * Go strings are byte strings; they are modelled as `List Char`, each
    character standing for one byte.  Every literal in this development is
    ASCII, where the two notions coincide; `len` is `List.length`.
  * A `map[string]any` of tool-call arguments is modelled by its JSON
    encoding (`argsJSON`), since every use in the verified code goes
    through `json.Marshal` (which cannot fail on the JSON-decoded values
    this program stores there).
  * Function-typed fields (LLM clients, callbacks) are modelled as opaque
    numeric identifiers: the verified code only installs or swaps them.
  * Calls out to the LLM (`ChatCompletion`, `summarizeMessages`) are
    modelled by explicit outcome parameters, so the verified functions
    stay pure and executable.
-/

/-- Go byte string (all literals here are ASCII, one `Char` per byte). -/
abbrev GoString := List Char

/-- Embed an ASCII Lean string literal as a Go string. -/
def gs (s : String) : GoString := s.toList

/-- `type Role string` from internal/llm/client.go, restricted to the four
role constants the program ever constructs. -/
inductive Role where
  | system
  | user
  | assistant
  | tool
deriving DecidableEq, Repr

/-- `llm.ToolCall` (internal/llm/client.go).  `Args map[string]any` is
modelled by its JSON encoding, see the header note. -/
structure ToolCall where
  id : GoString
  name : GoString
  argsJSON : GoString
deriving DecidableEq, Repr

/-- `llm.Message` (internal/llm/client.go). -/
structure Message where
  role : Role
  content : GoString
  toolCalls : List ToolCall
  toolCallID : GoString
deriving DecidableEq, Repr

/-- `llm.SystemMessage` helper constructor. -/
def SystemMessage (content : GoString) : Message :=
  { role := Role.system, content := content, toolCalls := [], toolCallID := [] }

/-- `llm.UserMessage` helper constructor. -/
def UserMessage (content : GoString) : Message :=
  { role := Role.user, content := content, toolCalls := [], toolCallID := [] }

/-- `llm.AssistantMessage` helper constructor. -/
def AssistantMessage (content : GoString) : Message :=
  { role := Role.assistant, content := content, toolCalls := [], toolCallID := [] }

/-- `llm.ToolResultMessage(toolCallID, content)` helper constructor. -/
def ToolResultMessage (toolCallID content : GoString) : Message :=
  { role := Role.tool, content := content, toolCalls := [], toolCallID := toolCallID }

/-- `llm.ToolDef`; the JSON-schema `Parameters` object is opaque to every
verified operation, so it is modelled by an identifier. -/
structure ToolDef where
  name : GoString
  description : GoString
  parameters : Nat
deriving DecidableEq, Repr

/-- Placeholder used to express Go's in-bounds index `messages[i]` through
`List.getD`; every verified access is proved in bounds. -/
def dummyMsg : Message := SystemMessage []

/-- `agent.Agent` (internal/agent/agent.go).  `llm`, `utilityLLM` and the
three callback slots hold function values in Go; the verified code only
stores or swaps them, so they are opaque identifiers here.  The registry
is represented by the tool list it contributes at construction. -/
structure Agent where
  llm : Nat
  utilityLLM : Option Nat
  history : List Message
  tools : List ToolDef
  maxIter : Nat
  maxTokens : Nat
  onToolCall : Nat
  onToolResult : Nat
  onTextDelta : Nat
deriving DecidableEq, Repr

/-- `estimateTokens` (internal/agent/context.go): `len/4` per field with a
minimum of one token per message.  Go's `/` on non-negative ints is the
floor division used here; the `json.Marshal` inside the loop is the
`argsJSON` field (it cannot fail on this program's argument maps). -/
def estimateTokens (m : Message) : Nat :=
  let tokens := m.content.length / 4 +
    (m.toolCalls.map (fun tc => tc.name.length / 4 + tc.argsJSON.length / 4)).sum
  if tokens = 0 then 1 else tokens

/-- `estimateHistoryTokens` (internal/agent/context.go). -/
def estimateHistoryTokens (messages : List Message) : Nat :=
  (messages.map estimateTokens).sum

/-- The backward walk inside `findSplitPoint`: Go iterates `i` from
`len-1` down to `1` accumulating token costs; the visited messages are
exactly `(messages.drop 1).reverse`.  Returns `some (i+1)` at the first
`i` whose message would push the accumulator over the budget, `none` if
the budget is never exceeded. -/
def walkBack (budget : Nat) : List Message → Nat → Nat → Option Nat
  | [], _, _ => none
  | m :: rest, i, tokens =>
    if tokens + estimateTokens m > budget then some (i + 1)
    else walkBack budget rest (i - 1) (tokens + estimateTokens m)

/-- The `for splitIdx > 1` scan inside `findSplitPoint`: walk the index
down until it sits on a `user` message or reaches 1. -/
def scanToUser (messages : List Message) : Nat → Nat
  | 0 => 0
  | 1 => 1
  | n + 2 =>
    if (messages.getD (n + 2) dummyMsg).role = Role.user then n + 2
    else scanToUser messages (n + 1)

/-- The closing guard of `findSplitPoint`: the Go
`if splitIdx <= 1 || messages[splitIdx].Role != llm.RoleUser { return len }`
written as two nested conditionals with the same result. -/
def fspCheck (messages : List Message) (s2 : Nat) : Nat :=
  if s2 ≤ 1 then messages.length
  else if (messages.getD s2 dummyMsg).role = Role.user then s2
  else messages.length

/-- `findSplitPoint` (internal/agent/context.go): backward token walk,
clamp to `len-1`, backward scan to a `user` boundary, final guard. -/
def findSplitPoint (messages : List Message) (recentTokenBudget : Nat) : Nat :=
  if messages.length ≤ 2 then messages.length
  else
    match walkBack recentTokenBudget ((messages.drop 1).reverse)
        (messages.length - 1) 0 with
    | none => messages.length
    | some s0 =>
      fspCheck messages
        (scanToUser messages
          (if s0 ≥ messages.length then messages.length - 1 else s0))

/-- `Agent.trimHistory` (internal/agent/agent.go): keep the system message
and the last `keepLast` messages. -/
def trimHistory (history : List Message) (keepLast : Nat) : List Message :=
  if history.length ≤ keepLast + 1 then history
  else history.take 1 ++ history.drop (history.length - keepLast)

/-- The literal marker prepended to the summary message. -/
def priorSummaryMarker : GoString := gs "[Prior conversation summary]\n"

/-- `Agent.compactHistory` (internal/agent/context.go).  The
`summarizeMessages` LLM call is modelled by its outcome `summarize`
(`Except.error` = the summarization call failed).  The Go method returns
`nil` in every branch; the second component records that returned error
value. -/
def compactHistory (a : Agent) (summarize : Except Unit GoString) :
    Agent × Except GoString Unit :=
  let total := estimateHistoryTokens a.history
  if total ≤ a.maxTokens then (a, Except.ok ())
  else
    let recentBudget := a.maxTokens * 60 / 100
    let splitIdx := findSplitPoint a.history recentBudget
    if splitIdx ≥ a.history.length then (a, Except.ok ())
    else
      let oldMessages := (a.history.drop 1).take (splitIdx - 1)
      if oldMessages.length = 0 then (a, Except.ok ())
      else
        match summarize with
        | Except.error _ =>
          ({ a with history := trimHistory a.history 10 }, Except.ok ())
        | Except.ok summary =>
          let summaryMsg := SystemMessage (priorSummaryMarker ++ summary)
          ({ a with history :=
              a.history.take 1 ++ [summaryMsg] ++ a.history.drop splitIdx },
            Except.ok ())

/-- `Agent.SetSystemPrompt` (internal/agent/agent.go).  Writing
`a.history[0]` on an empty history is an out-of-range panic, modelled as
`none`. -/
def setSystemPrompt (a : Agent) (prompt : GoString) : Option Agent :=
  if prompt ≠ [] then
    match a.history with
    | [] => none
    | _ :: rest => some { a with history := SystemMessage prompt :: rest }
  else some a

/-- `Agent.FilterTools` (internal/agent/agent.go): the `allowed` name set
is membership in `names`. -/
def filterTools (a : Agent) (names : List GoString) : Agent :=
  if names.length = 0 then a
  else { a with tools := a.tools.filter (fun t => decide (t.name ∈ names)) }

/-- `Agent.SetMaxTokens` (internal/agent/agent.go); the Go parameter is a
signed int, guarded to be positive before being stored. -/
def setMaxTokens (a : Agent) (maxTokens : Int) : Agent :=
  if maxTokens > 0 then { a with maxTokens := maxTokens.toNat } else a

/-- `Agent.SetUtilityLLM` (internal/agent/agent.go). -/
def setUtilityLLM (a : Agent) (client : Nat) : Agent :=
  { a with utilityLLM := some client }

/-- `Agent.SetClient` (internal/agent/agent.go). -/
def setClient (a : Agent) (client : Nat) : Agent :=
  { a with llm := client }

/-- `Agent.SetHistory` (internal/agent/agent.go): wholesale replacement. -/
def setHistory (a : Agent) (messages : List Message) : Agent :=
  { a with history := messages }

/-- `Agent.Reset` (internal/agent/agent.go): `a.history[:1]`.  On an empty
(zero-capacity) history, reachable via `SetHistory(nil)`, the slice
expression panics; modelled as `none`. -/
def reset (a : Agent) : Option Agent :=
  match a.history with
  | [] => none
  | h0 :: _ => some { a with history := [h0] }

/-- The default system prompt from internal/agent/agent.go. -/
def defaultSystemPrompt : GoString :=
  gs "You are Forge, a helpful AI assistant with access to tools.\nWhen you need information from the system (files, commands, etc.), use the available tools.\nAlways explain what you\x27re doing and why. After using a tool, interpret the results for the user."

/-- `Agent.builtinTools` (internal/agent/agent.go); the JSON-schema
parameters object is opaque (identifier 0). -/
def builtinTools : List ToolDef :=
  [{ name := gs "shell_exec",
     description := gs "Execute a shell command and return the combined stdout and stderr output. Use this to run system commands, check files, install packages, etc.",
     parameters := 0 }]

/-- `agent.New` (internal/agent/agent.go).  The registry is represented by
its tool catalog; `HasTools` is its non-emptiness. -/
def agentNew (client : Nat) (registryTools : List ToolDef) (maxIterations : Nat) :
    Agent :=
  { llm := client
    utilityLLM := none
    history := [SystemMessage defaultSystemPrompt]
    tools := if registryTools.isEmpty then builtinTools else registryTools
    maxIter := maxIterations
    maxTokens := 6000
    onToolCall := 0
    onToolResult := 0
    onTextDelta := 0 }

/-- Errors `Agent.Run` can return. -/
inductive RunError where
  | llmCall (iteration : Nat)
  | iterationLimit
deriving DecidableEq, Repr

/-- The ReAct loop body shared by `Run` and `RunStreaming`
(internal/agent/agent.go).  The successive `ChatCompletion` outcomes are
the `script`; list exhaustion or an `Except.error` entry is an LLM call
failure.  Tool execution (`executeTool`, whose errors are folded into the
observation text) is the function `exec`.  `fuel` is the remaining
iteration count. -/
def runLoop (exec : ToolCall → GoString) :
    List (Except Unit Message) → Agent → Nat → Nat →
    Agent × Except RunError GoString
  | _, a, 0, _ => (a, Except.error RunError.iterationLimit)
  | [], a, _ + 1, iter => (a, Except.error (RunError.llmCall iter))
  | Except.error _ :: _, a, _ + 1, iter =>
    (a, Except.error (RunError.llmCall iter))
  | Except.ok msg :: rest, a, fuel + 1, iter =>
    let a1 := { a with history := a.history ++ [msg] }
    if msg.toolCalls.isEmpty then (a1, Except.ok msg.content)
    else
      let results := msg.toolCalls.map fun tc =>
        ToolResultMessage tc.id (exec tc)
      runLoop exec rest { a1 with history := a1.history ++ results } fuel (iter + 1)

/-- `Agent.Run` (internal/agent/agent.go): compact (its returned error is
ignored by the Go code), append the user message, then loop up to
`maxIter` times. -/
def run (a : Agent) (summarize : Except Unit GoString)
    (script : List (Except Unit Message)) (exec : ToolCall → GoString)
    (userMessage : GoString) : Agent × Except RunError GoString :=
  let a1 := (compactHistory a summarize).1
  let a2 := { a1 with history := a1.history ++ [UserMessage userMessage] }
  runLoop exec script a2 a2.maxIter 1

/-- `Agent.RunStreaming` (internal/agent/agent.go) duplicates `Run`
verbatim except that step 1 uses `ChatCompletionStream` with the
text-delta callback as sink; the sink does not touch agent state, so on
this state model the function coincides with `run`. -/
def runStreaming (a : Agent) (summarize : Except Unit GoString)
    (script : List (Except Unit Message)) (exec : ToolCall → GoString)
    (userMessage : GoString) : Agent × Except RunError GoString :=
  run a summarize script exec userMessage

/-- The spec invariant on a history: non-empty with a `system` head. -/
def histOk (h : List Message) : Bool :=
  match h with
  | [] => false
  | m :: _ => decide (m.role = Role.system)

/-- Check that the messages following an assistant message answer its tool
calls in order: the `j`-th following message is a `tool` message whose
`tool_call_id` is the id of the `j`-th call. -/
def checkCalls : List ToolCall → List Message → Bool
  | [], _ => true
  | _ :: _, [] => false
  | tc :: tcs, t :: ts =>
    decide (t.role = Role.tool) && decide (t.toolCallID = tc.id) &&
      checkCalls tcs ts

/-- Tool-call adjacency over a whole history: every assistant message with
tool calls is immediately followed by the matching tool messages. -/
def groupOk : List Message → Bool
  | [] => true
  | m :: rest =>
    (if m.role = Role.assistant ∧ m.toolCalls ≠ [] then
      checkCalls m.toolCalls rest
    else true) && groupOk rest

/-- Go's `unicode.IsSpace` restricted to the ASCII whitespace bytes (the
Latin-1 additions U+0085 and U+00A0 cannot occur as single bytes of the
ASCII strings considered here). -/
def isGoSpace (c : Char) : Bool :=
  decide (c = ' ') || decide (c = '\t') || decide (c = '\n') ||
    decide (c = '\x0b') || decide (c = '\x0c') || decide (c = '\x0d')

/-- `strings.TrimSpace`: drop leading and trailing whitespace. -/
def trimSpace (s : GoString) : GoString :=
  ((s.dropWhile isGoSpace).reverse.dropWhile isGoSpace).reverse

/-- `generateTitle` (internal/server/handlers.go): trim, then truncate a
message longer than 80 bytes to its first 80 bytes plus `"..."`. -/
def generateTitle (firstMessage : GoString) : GoString :=
  let t := trimSpace firstMessage
  if t.length > 80 then t.take 80 ++ gs "..." else t

/-- `storage.Session` metadata row; timestamps are opaque counters here
(they are set server-side and unconstrained by the verified claims). -/
structure Session where
  id : GoString
  title : GoString
  status : GoString
  provider : GoString
  model : GoString
  profile : GoString
  createdAt : Nat
  updatedAt : Nat
deriving DecidableEq, Repr

/-- Errors surfaced by `SQLiteStore.GetSession`: the zero-match and
multiple-match cases of the id lookup. -/
inductive StoreErr where
  | notFound (id : GoString)
  | ambiguous (id : GoString) (count : Nat)
deriving DecidableEq, Repr

/-- `getSessionExact` (internal/storage/sqlite/sqlite.go): the
`WHERE id = ?` query against the primary key. -/
def getSessionExact (sessions : List Session) (id : GoString) : Option Session :=
  sessions.find? (fun s => decide (s.id = id))

/-- `SQLiteStore.GetSession` (internal/storage/sqlite/sqlite.go): exact
match first, then the `id LIKE ? || '%'` query.  The LIKE pattern is a
plain prefix test for the wildcard-free, case-exact ids this store
holds. -/
def getSession (sessions : List Session) (id : GoString) :
    Except StoreErr Session :=
  match getSessionExact sessions id with
  | some s => Except.ok s
  | none =>
    match sessions.filter (fun s => id.isPrefixOf s.id) with
    | [] => Except.error (StoreErr.notFound id)
    | [s] => Except.ok s
    | ms => Except.error (StoreErr.ambiguous id ms.length)

/-- Decidable equality for store results (used to evaluate the concrete
scenarios). -/
instance {e a : Type} [DecidableEq e] [DecidableEq a] :
    DecidableEq (Except e a) := fun x y =>
  match x, y with
  | Except.ok v, Except.ok w =>
    if h : v = w then isTrue (by rw [h])
    else isFalse fun hh => h (by cases hh; rfl)
  | Except.error v, Except.error w =>
    if h : v = w then isTrue (by rw [h])
    else isFalse fun hh => h (by cases hh; rfl)
  | Except.ok _, Except.error _ => isFalse fun hh => Except.noConfusion hh
  | Except.error _, Except.ok _ => isFalse fun hh => Except.noConfusion hh

/-- Wire form of a tool call inside the `messages_json` blob: the
`json:"id"`, `json:"name"`, `json:"arguments"` tags carry every field
unconditionally. -/
structure WireToolCall where
  id : GoString
  name : GoString
  argsJSON : GoString
deriving DecidableEq, Repr

/-- Wire form of a message inside the `messages_json` blob, following the
struct tags of `llm.Message`: `content`, `tool_calls` and `tool_call_id`
are `omitempty`, so an empty value is absent (`none`) on the wire.  The
generic JSON text layer (`encoding/json`) is the standard library and is
taken as faithful transport of this record. -/
structure WireMessage where
  role : GoString
  content : Option GoString
  toolCalls : Option (List WireToolCall)
  toolCallID : Option GoString
deriving DecidableEq, Repr

/-- The JSON string for each role constant. -/
def encodeRole : Role → GoString
  | Role.system => gs "system"
  | Role.user => gs "user"
  | Role.assistant => gs "assistant"
  | Role.tool => gs "tool"

/-- Parse a role string back; the program only ever writes the four
constants. -/
def decodeRole (s : GoString) : Option Role :=
  if s = gs "system" then some Role.system
  else if s = gs "user" then some Role.user
  else if s = gs "assistant" then some Role.assistant
  else if s = gs "tool" then some Role.tool
  else none

/-- Marshal one tool call. -/
def encodeTC (tc : ToolCall) : WireToolCall :=
  { id := tc.id, name := tc.name, argsJSON := tc.argsJSON }

/-- Unmarshal one tool call. -/
def decodeTC (w : WireToolCall) : ToolCall :=
  { id := w.id, name := w.name, argsJSON := w.argsJSON }

/-- Marshal one message per the struct tags (`omitempty` drops empty
content, an empty call list, and an empty tool-call id). -/
def encodeMessage (m : Message) : WireMessage :=
  { role := encodeRole m.role
    content := if m.content = [] then none else some m.content
    toolCalls :=
      if m.toolCalls = [] then none else some (m.toolCalls.map encodeTC)
    toolCallID := if m.toolCallID = [] then none else some m.toolCallID }

/-- Unmarshal one message: absent fields decode to their zero values. -/
def decodeMessage (w : WireMessage) : Option Message :=
  (decodeRole w.role).map fun r =>
    { role := r
      content := w.content.getD []
      toolCalls := (w.toolCalls.getD []).map decodeTC
      toolCallID := w.toolCallID.getD [] }

/-- One `session_messages` table: an association of session id to the
stored blob (kept at the wire-record level; the JSON text serialization
is the standard library's). -/
abbrev MessagesTable := List (GoString × List WireMessage)

/-- The `INSERT ... ON CONFLICT(session_id) DO UPDATE` upsert. -/
def upsertRow : MessagesTable → GoString → List WireMessage → MessagesTable
  | [], id, w => [(id, w)]
  | (k, v) :: rest, id, w =>
    if k = id then (id, w) :: rest else (k, v) :: upsertRow rest id w

/-- `SQLiteStore.SaveMessages` (internal/storage/sqlite/sqlite.go):
marshal the list and upsert the single row for the session. -/
def saveMessages (table : MessagesTable) (sessionID : GoString)
    (messages : List Message) : MessagesTable :=
  upsertRow table sessionID (messages.map encodeMessage)

/-- Unmarshal a stored message array elementwise; any element failure
fails the whole decode (as `json.Unmarshal` of the array does). -/
def decodeMessages : List WireMessage → Option (List Message)
  | [] => some []
  | w :: rest =>
    match decodeMessage w, decodeMessages rest with
    | some m, some ms => some (m :: ms)
    | _, _ => none

/-- `SQLiteStore.LoadMessages` (internal/storage/sqlite/sqlite.go): no row
decodes to the empty (nil) list; a row is unmarshalled, `none` standing
for an unmarshalling error. -/
def loadMessages (table : MessagesTable) (sessionID : GoString) :
    Option (List Message) :=
  match table.find? (fun e => decide (e.1 = sessionID)) with
  | none => some []
  | some (_, w) => decodeMessages w

/-! Concrete inputs used by witnesses and counterexamples. -/

/-- A 200-byte user message (one token cost 50). -/
def longU : Message := UserMessage (List.replicate 200 'a')

/-- A 200-byte assistant message (one token cost 50). -/
def longA : Message := AssistantMessage (List.replicate 200 'b')

/-- A short system prompt (one token cost 1). -/
def sysShort : Message := SystemMessage (gs "system")

/-- A 13-message over-budget history (system + six user/assistant pairs)
with a tiny token budget; forces the compaction fallback to trim. -/
def w2agent : Agent :=
  { llm := 0, utilityLLM := none
    history := [sysShort, longU, longA, longU, longA, longU, longA,
      longU, longA, longU, longA, longU, longA]
    tools := [], maxIter := 5, maxTokens := 10
    onToolCall := 0, onToolResult := 0, onTextDelta := 0 }

/-- A 5-message over-budget history whose split lands on the second user
message; exercises the successful-summarization rebuild. -/
def w5agent : Agent :=
  { llm := 0, utilityLLM := none
    history := [SystemMessage (gs "s"), UserMessage (gs "q1"),
      AssistantMessage (List.replicate 100 'x'), UserMessage (gs "q2"),
      AssistantMessage (List.replicate 100 'y')]
    tools := [], maxIter := 5, maxTokens := 10
    onToolCall := 0, onToolResult := 0, onTextDelta := 0 }

/-- Build a stored session with the given id and empty metadata. -/
def mkSession (id : String) : Session :=
  { id := gs id, title := [], status := gs "active", provider := []
    model := [], profile := [], createdAt := 0, updatedAt := 0 }

/-- First session of the E5 scenario. -/
def sessA : Session := mkSession "abc00000-0000-0000-0000-000000000000"

/-- Second session of the E5 scenario. -/
def sessB : Session := mkSession "abc11111-0000-0000-0000-000000000000"

/-- The two-session store of the E5 scenario. -/
def store2 : List Session := [sessA, sessB]

/-- Spec-side restatement of the per-message token formula (with floor
division, the amended reading): used to compare `estimateTokens` against
the specification text. -/
def estimateTokensSpec (m : Message) : Nat :=
  max 1 (m.content.length / 4 +
    (m.toolCalls.map (fun tc => tc.name.length / 4 + tc.argsJSON.length / 4)).sum)

/-- Spec-side restatement of the history cost: the sum of the per-message
estimates. -/
def estimateHistoryTokensSpec (messages : List Message) : Nat :=
  (messages.map estimateTokensSpec).sum

/-! Helper lemmas. -/

theorem histOk_shape (h : List Message) (hh : histOk h = true) :
    ∃ m t, h = m :: t ∧ m.role = Role.system := by
  cases h with
  | nil => simp [histOk] at hh
  | cons m t => exact ⟨m, t, rfl, by simpa [histOk] using hh⟩

theorem histOk_append (h l : List Message) (hh : histOk h = true) :
    histOk (h ++ l) = true := by
  cases h with
  | nil => simp [histOk] at hh
  | cons m t => simpa [histOk] using hh

theorem histOk_take1_append (h l : List Message) (hh : histOk h = true) :
    histOk (h.take 1 ++ l) = true := by
  cases h with
  | nil => simp [histOk] at hh
  | cons m t => simpa [histOk] using hh

theorem groupOk_tail (m : Message) (t : List Message)
    (hg : groupOk (m :: t) = true) : groupOk t = true := by
  simp only [groupOk, Bool.and_eq_true] at hg
  exact hg.2

theorem groupOk_drop (n : Nat) (h : List Message) (hg : groupOk h = true) :
    groupOk (h.drop n) = true := by
  induction n generalizing h with
  | zero => simpa using hg
  | succ n ih =>
    cases h with
    | nil => simpa using hg
    | cons m t => simpa using ih t (groupOk_tail m t hg)

theorem groupOk_cons_system (m : Message) (t : List Message)
    (hm : m.role = Role.system) : groupOk (m :: t) = groupOk t := by
  simp [groupOk, hm]

theorem fspCheck_lt (messages : List Message) (s2 : Nat)
    (h : fspCheck messages s2 < messages.length) :
    2 ≤ fspCheck messages s2 ∧
      (messages.getD (fspCheck messages s2) dummyMsg).role = Role.user := by
  unfold fspCheck at h ⊢
  by_cases h1 : s2 ≤ 1
  · rw [if_pos h1] at h ⊢
    omega
  · rw [if_neg h1] at h ⊢
    by_cases h2 : (messages.getD s2 dummyMsg).role = Role.user
    · rw [if_pos h2] at h ⊢
      exact ⟨by omega, h2⟩
    · rw [if_neg h2] at h ⊢
      omega

theorem fsp_lt (messages : List Message) (b : Nat)
    (h : findSplitPoint messages b < messages.length) :
    2 ≤ findSplitPoint messages b ∧
      (messages.getD (findSplitPoint messages b) dummyMsg).role = Role.user := by
  unfold findSplitPoint at h ⊢
  by_cases h0 : messages.length ≤ 2
  · rw [if_pos h0] at h ⊢
    omega
  · rw [if_neg h0] at h ⊢
    generalize walkBack b ((messages.drop 1).reverse) (messages.length - 1) 0 = w at h ⊢
    cases w with
    | none => exact absurd h (lt_irrefl _)
    | some s0 => exact fspCheck_lt _ _ h

theorem compact_le_eq (a : Agent) (s : Except Unit GoString)
    (h : estimateHistoryTokens a.history ≤ a.maxTokens) :
    compactHistory a s = (a, Except.ok ()) := by
  simp only [compactHistory]
  rw [if_pos h]

theorem compact_nosplit_eq (a : Agent) (s : Except Unit GoString)
    (h2 : findSplitPoint a.history (a.maxTokens * 60 / 100) ≥ a.history.length) :
    compactHistory a s = (a, Except.ok ()) := by
  by_cases h1 : estimateHistoryTokens a.history ≤ a.maxTokens
  · exact compact_le_eq a s h1
  · simp only [compactHistory]
    rw [if_neg h1, if_pos h2]

theorem compact_over_eq (a : Agent) (s : Except Unit GoString)
    (hover : a.maxTokens < estimateHistoryTokens a.history)
    (hsplit : findSplitPoint a.history (a.maxTokens * 60 / 100) < a.history.length) :
    compactHistory a s =
      match s with
      | Except.error _ =>
        ({ a with history := trimHistory a.history 10 }, Except.ok ())
      | Except.ok summary =>
        ({ a with history := a.history.take 1 ++
            [SystemMessage (priorSummaryMarker ++ summary)] ++
            a.history.drop (findSplitPoint a.history (a.maxTokens * 60 / 100)) },
          Except.ok ()) := by
  have h2 := (fsp_lt a.history (a.maxTokens * 60 / 100) hsplit).1
  have hc1 : ¬ (estimateHistoryTokens a.history ≤ a.maxTokens) := by omega
  have hc2 : ¬ (findSplitPoint a.history (a.maxTokens * 60 / 100) ≥
      a.history.length) := by omega
  have hc3 : ¬ (((a.history.drop 1).take
      (findSplitPoint a.history (a.maxTokens * 60 / 100) - 1)).length = 0) := by
    simp only [List.length_take, List.length_drop]
    omega
  simp only [compactHistory]
  rw [if_neg hc1, if_neg hc2, if_neg hc3]

theorem take_one_append_tail (h : List Message) (hne : h ≠ []) :
    h.take 1 ++ h.tail = h := by
  cases h with
  | nil => exact absurd rfl hne
  | cons m t => rfl

theorem trim10_eq (h : List Message) (hlen : 3 ≤ h.length) :
    trimHistory h 10 = h.take 1 ++ h.tail.drop (h.tail.length - 10) := by
  unfold trimHistory
  by_cases hc : h.length ≤ 11
  · rw [if_pos hc]
    have h0 : h.tail.length - 10 = 0 := by
      simp only [List.length_tail]
      omega
    rw [h0, List.drop_zero, take_one_append_tail h (by cases h <;> simp_all)]
  · rw [if_neg hc]
    have ht : h.tail = h.drop 1 := (List.drop_one h).symm
    rw [ht, List.drop_drop, List.length_drop]
    have harith : h.length - 10 = 1 + (h.length - 1 - 10) := by omega
    rw [harith]

theorem trim10_len (h : List Message) : (trimHistory h 10).length ≤ 11 := by
  unfold trimHistory
  by_cases hc : h.length ≤ 11
  · rw [if_pos hc]
    omega
  · rw [if_neg hc]
    simp only [List.length_append, List.length_take, List.length_drop]
    omega

theorem trim10_groupOk (h : List Message) (hist : histOk h = true)
    (hadj : groupOk h = true) : groupOk (trimHistory h 10) = true := by
  obtain ⟨m, t, rfl, hrole⟩ := histOk_shape h hist
  unfold trimHistory
  by_cases hc : (m :: t).length ≤ 11
  · rw [if_pos hc]
    exact hadj
  · rw [if_neg hc]
    have htake : (m :: t).take 1 = [m] := rfl
    rw [htake]
    show groupOk (m :: (m :: t).drop ((m :: t).length - 10)) = true
    rw [groupOk_cons_system m _ hrole]
    exact groupOk_drop _ _ hadj

theorem trim10_histOk (h : List Message) (hh : histOk h = true) :
    histOk (trimHistory h 10) = true := by
  unfold trimHistory
  by_cases hc : h.length ≤ 11
  · rw [if_pos hc]
    exact hh
  · rw [if_neg hc]
    exact histOk_take1_append _ _ hh

theorem compact_histOk (a : Agent) (s : Except Unit GoString)
    (h : histOk a.history = true) :
    histOk (compactHistory a s).1.history = true := by
  by_cases h1 : estimateHistoryTokens a.history ≤ a.maxTokens
  · rw [compact_le_eq a s h1]
    exact h
  · by_cases h2 : findSplitPoint a.history (a.maxTokens * 60 / 100) ≥
        a.history.length
    · rw [compact_nosplit_eq a s h2]
      exact h
    · push_neg at h1 h2
      cases s with
      | error e =>
        rw [compact_over_eq a (Except.error e) h1 h2]
        show histOk (trimHistory a.history 10) = true
        exact trim10_histOk _ h
      | ok summary =>
        rw [compact_over_eq a (Except.ok summary) h1 h2]
        show histOk (a.history.take 1 ++
          [SystemMessage (priorSummaryMarker ++ summary)] ++
          a.history.drop (findSplitPoint a.history (a.maxTokens * 60 / 100))) = true
        exact histOk_append _ _ (histOk_take1_append _ _ h)

theorem runLoop_histOk (exec : ToolCall → GoString)
    (script : List (Except Unit Message)) (a : Agent) (fuel iter : Nat)
    (h : histOk a.history = true) :
    histOk (runLoop exec script a fuel iter).1.history = true := by
  induction fuel generalizing script a iter with
  | zero => simpa [runLoop] using h
  | succ fuel ih =>
    cases script with
    | nil => simpa [runLoop] using h
    | cons r rest =>
      cases r with
      | error e => simpa [runLoop] using h
      | ok msg =>
        simp only [runLoop]
        split
        · exact histOk_append _ _ h
        · exact ih rest _ _ (histOk_append _ _ (histOk_append _ _ h))

theorem run_histOk (a : Agent) (summarize : Except Unit GoString)
    (script : List (Except Unit Message)) (exec : ToolCall → GoString)
    (u : GoString) (h : histOk a.history = true) :
    histOk (run a summarize script exec u).1.history = true := by
  simp only [run]
  exact runLoop_histOk _ _ _ _ _ (histOk_append _ _ (compact_histOk a summarize h))

theorem getD_drop_head (h : List Message) (n : Nat) (hn : n < h.length) :
    (h.drop n).head? = some (h.getD n dummyMsg) := by
  induction n generalizing h with
  | zero =>
    cases h with
    | nil => simp at hn
    | cons m t => simp [List.getD]
  | succ n ih =>
    cases h with
    | nil => simp at hn
    | cons m t =>
      simp only [List.drop_succ_cons, List.getD_cons_succ]
      exact ih t (by simpa using hn)

theorem decodeRole_encodeRole (r : Role) : decodeRole (encodeRole r) = some r := by
  cases r <;> rfl

theorem decodeTC_encodeTC (tc : ToolCall) : decodeTC (encodeTC tc) = tc := rfl

theorem map_decode_encode_tc (tcs : List ToolCall) :
    List.map (decodeTC ∘ encodeTC) tcs = tcs := by
  have hid : decodeTC ∘ encodeTC = id := funext fun tc => rfl
  rw [hid, List.map_id]

theorem decodeMessage_encodeMessage (m : Message) :
    decodeMessage (encodeMessage m) = some m := by
  obtain ⟨r, c, tcs, tid⟩ := m
  simp only [encodeMessage, decodeMessage, decodeRole_encodeRole,
    Option.map_some']
  by_cases hc : c = [] <;> by_cases ht : tcs = [] <;> by_cases hi : tid = [] <;>
    simp [hc, ht, hi, map_decode_encode_tc]

theorem find?_upsertRow (t : MessagesTable) (id : GoString)
    (w : List WireMessage) :
    (upsertRow t id w).find? (fun e => decide (e.1 = id)) = some (id, w) := by
  induction t with
  | nil => simp [upsertRow, List.find?]
  | cons kv rest ih =>
    obtain ⟨k, v⟩ := kv
    by_cases hk : k = id
    · simp [upsertRow, hk, List.find?]
    · simp [upsertRow, hk, List.find?, ih]

theorem decodeMessages_encode (msgs : List Message) :
    decodeMessages (msgs.map encodeMessage) = some msgs := by
  induction msgs with
  | nil => rfl
  | cons m rest ih =>
    simp [decodeMessages, decodeMessage_encodeMessage m, ih]

/-! Claim theorems. -/

/-- C3 (counterexample): the claimed per-message formula uses a ceiling
division, but `estimateTokens` floor-divides: a user message whose
content is the 5 bytes `aaaaa` costs 1 token, not
`max 1 ⌈5/4⌉ = 2` as the claim computes. -/
theorem estimateTokens_ceil_cex :
    estimateTokens (UserMessage (gs "aaaaa")) = 1 ∧
    (gs "aaaaa").length = 5 ∧
    estimateTokens (UserMessage (gs "aaaaa")) ≠ max 1 ((5 + 3) / 4) := by
  decide

/-- C3 (amended): for every message, the estimated token count is
`len(content)/4` plus, for each tool call, `len(name)/4 + len(json(args))/4`
— all with floor division — clamped to a minimum of 1 per message; the
estimate of a history is the sum of its messages' estimates. -/
theorem estimateTokens_floor_formula :
    (∀ m, estimateTokens m = estimateTokensSpec m) ∧
    (∀ messages, estimateHistoryTokens messages =
      estimateHistoryTokensSpec messages) := by
  have hm : ∀ m, estimateTokens m = estimateTokensSpec m := by
    intro m
    simp only [estimateTokens, estimateTokensSpec]
    split <;> omega
  refine ⟨hm, fun messages => ?_⟩
  simp only [estimateHistoryTokens, estimateHistoryTokensSpec]
  rw [show estimateTokens = estimateTokensSpec from funext hm]

set_option maxRecDepth 100000 in
/-- C4 (counterexample): with a 13-message over-budget history and a
failing summarizer, `compactHistory` trims to system + last 10 messages,
whose estimate (501) neither fits the budget (10) nor equals the
pre-compaction estimate (601). -/
theorem compact_budget_cex :
    ¬ (estimateHistoryTokens (compactHistory w2agent (Except.error ())).1.history
        ≤ w2agent.maxTokens ∨
      estimateHistoryTokens (compactHistory w2agent (Except.error ())).1.history
        = estimateHistoryTokens w2agent.history) := by
  decide

/-- C4 (amended): whenever the pre-compaction estimate is within the
budget, `compactHistory` returns the history unchanged (and reports
success), so the post-compaction estimate equals the pre-compaction one;
when over budget the rebuilt or trimmed history is bounded by neither
`max_tokens` nor the old estimate. -/
theorem compact_under_budget_noop (a : Agent) (s : Except Unit GoString)
    (h : estimateHistoryTokens a.history ≤ a.maxTokens) :
    compactHistory a s = (a, Except.ok ()) ∧
    estimateHistoryTokens (compactHistory a s).1.history =
      estimateHistoryTokens a.history := by
  have he := compact_le_eq a s h
  exact ⟨he, by rw [he]⟩

set_option maxRecDepth 100000 in
/-- C4 (witness): a fresh agent is far under its 6000-token default
budget, so compaction is a no-op on it. -/
theorem compact_under_budget_noop_witness :
    compactHistory (agentNew 0 [] 5) (Except.error ()) =
      (agentNew 0 [] 5, Except.ok ()) ∧
    estimateHistoryTokens
        (compactHistory (agentNew 0 [] 5) (Except.error ())).1.history =
      estimateHistoryTokens (agentNew 0 [] 5).history :=
  compact_under_budget_noop (agentNew 0 [] 5) (Except.error ()) (by decide)

/-- C6 (counterexample): the title derived from a trimmed 81-byte message
is 83 bytes long, refuting the claimed 80-byte bound (the code appends
three ASCII dots after the first 80 bytes, not a single-character
ellipsis). -/
theorem generateTitle_len_cex :
    ¬ ((generateTitle (List.replicate 81 'a')).length ≤ 80) := by
  decide

/-- C6 (amended): the derived title is at most 83 bytes long; a
whitespace-trimmed message of at most 80 bytes is returned verbatim as
the title, and when the trimmed message exceeds 80 bytes the title is
exactly its first 80 bytes followed by the three-byte ASCII suffix
`...`. -/
theorem generateTitle_truncation (s : GoString) :
    (generateTitle s).length ≤ 83 ∧
    ((trimSpace s).length ≤ 80 → generateTitle s = trimSpace s) ∧
    (80 < (trimSpace s).length →
      generateTitle s = (trimSpace s).take 80 ++ gs "..." ∧
        (generateTitle s).length = 83) := by
  unfold generateTitle
  by_cases hl : (trimSpace s).length > 80
  · rw [if_pos hl]
    have hlen : ((trimSpace s).take 80 ++ gs "...").length = 83 := by
      simp only [List.length_append, List.length_take]
      have : (gs "...").length = 3 := by decide
      omega
    exact ⟨by omega, fun hc => absurd hl (by omega), fun _ => ⟨rfl, hlen⟩⟩
  · rw [if_neg hl]
    exact ⟨by omega, fun _ => rfl, fun hc => absurd hc hl⟩

/-- C6 (witness): instantiation at an 81-byte message, exercising the
truncation branch. -/
theorem generateTitle_truncation_witness :
    generateTitle (List.replicate 81 'a') =
      (trimSpace (List.replicate 81 'a')).take 80 ++ gs "..." ∧
    (generateTitle (List.replicate 81 'a')).length = 83 :=
  (generateTitle_truncation (List.replicate 81 'a')).2.2 (by decide)

/-- C8: `SaveMessages` followed by `LoadMessages` on the same session id
returns exactly the saved logical message list — same length, and per
message the same role, content, tool_call_id and tool calls (ids, names,
arguments). -/
theorem save_load_roundtrip (table : MessagesTable) (sessionID : GoString)
    (messages : List Message) :
    loadMessages (saveMessages table sessionID messages) sessionID =
      some messages := by
  unfold loadMessages saveMessages
  rw [find?_upsertRow]
  exact decodeMessages_encode messages

/-- C2: whenever compaction runs over budget, a split point exists (so
the summarization call is actually made) and the summarizer fails, the
resulting history is the first (system) message plus at most the 10 most
recent messages (length ≤ 11), every assistant message with k tool calls
is still immediately followed by the k answering tool messages, and
`compactHistory` reports success, not an error. -/
theorem compact_fallback_trim (a : Agent)
    (hinv : histOk a.history = true)
    (hadj : groupOk a.history = true)
    (hover : a.maxTokens < estimateHistoryTokens a.history)
    (hsplit : findSplitPoint a.history (a.maxTokens * 60 / 100) <
      a.history.length) :
    compactHistory a (Except.error ()) =
      ({ a with history := a.history.take 1 ++
          a.history.tail.drop (a.history.tail.length - 10) }, Except.ok ()) ∧
    (compactHistory a (Except.error ())).1.history.length ≤ 11 ∧
    groupOk (compactHistory a (Except.error ())).1.history = true := by
  have hlen3 : 3 ≤ a.history.length := by
    have := (fsp_lt _ _ hsplit).1
    omega
  have heq : compactHistory a (Except.error ()) =
      ({ a with history := trimHistory a.history 10 }, Except.ok ()) :=
    compact_over_eq a (Except.error ()) hover hsplit
  refine ⟨?_, ?_, ?_⟩
  · rw [heq, trim10_eq a.history hlen3]
  · rw [heq]
    exact trim10_len a.history
  · rw [heq]
    exact trim10_groupOk a.history hinv hadj

set_option maxRecDepth 100000 in
/-- C2 (witness): the fallback on the 13-message over-budget history. -/
theorem compact_fallback_trim_witness :
    compactHistory w2agent (Except.error ()) =
      ({ w2agent with history := w2agent.history.take 1 ++
          w2agent.history.tail.drop (w2agent.history.tail.length - 10) },
        Except.ok ()) ∧
    (compactHistory w2agent (Except.error ())).1.history.length ≤ 11 ∧
    groupOk (compactHistory w2agent (Except.error ())).1.history = true :=
  compact_fallback_trim w2agent (by decide) (by decide) (by decide) (by decide)

/-- C5: whenever `compactHistory` changes the history and summarization
succeeds, the new history is exactly the original first message, then a
system message whose content is the marker `[Prior conversation summary]\n`
followed by the summary, then the unchanged suffix of the old history
from the split index onward, whose first message has role `user`. -/
theorem compact_success_shape (a : Agent) (summary : GoString)
    (hchanged : (compactHistory a (Except.ok summary)).1.history ≠ a.history) :
    (compactHistory a (Except.ok summary)).1.history =
      a.history.take 1 ++ [SystemMessage (priorSummaryMarker ++ summary)] ++
        a.history.drop (findSplitPoint a.history (a.maxTokens * 60 / 100)) ∧
    ((a.history.drop
        (findSplitPoint a.history (a.maxTokens * 60 / 100))).head?).map
      Message.role = some Role.user := by
  by_cases h1 : estimateHistoryTokens a.history ≤ a.maxTokens
  · rw [compact_le_eq a _ h1] at hchanged
    exact absurd rfl hchanged
  · by_cases h2 : findSplitPoint a.history (a.maxTokens * 60 / 100) ≥
        a.history.length
    · rw [compact_nosplit_eq a _ h2] at hchanged
      exact absurd rfl hchanged
    · push_neg at h1 h2
      have heq1 : (compactHistory a (Except.ok summary)).1.history =
          a.history.take 1 ++ [SystemMessage (priorSummaryMarker ++ summary)] ++
            a.history.drop (findSplitPoint a.history (a.maxTokens * 60 / 100)) := by
        rw [compact_over_eq a (Except.ok summary) h1 h2]
      have hrole := (fsp_lt a.history (a.maxTokens * 60 / 100) h2).2
      refine ⟨heq1, ?_⟩
      rw [getD_drop_head a.history _ h2, Option.map_some', hrole]

set_option maxRecDepth 100000 in
/-- C5 (witness): the successful rebuild on the 5-message over-budget
history, with summary text `SUM`. -/
theorem compact_success_shape_witness :
    (compactHistory w5agent (Except.ok (gs "SUM"))).1.history =
      w5agent.history.take 1 ++
        [SystemMessage (priorSummaryMarker ++ gs "SUM")] ++
        w5agent.history.drop
          (findSplitPoint w5agent.history (w5agent.maxTokens * 60 / 100)) ∧
    ((w5agent.history.drop
        (findSplitPoint w5agent.history (w5agent.maxTokens * 60 / 100))).head?).map
      Message.role = some Role.user :=
  compact_success_shape w5agent (gs "SUM") (by decide)

/-- C7 (counterexample): with only `abc00000-…` and `abc11111-…` stored,
GetSession("abc12") fails with NotFound — `abc12` is not a prefix of any
stored id — rather than returning `abc11111-…` as the claim states. -/
theorem getSession_abc12_cex :
    getSession store2 (gs "abc12") =
      Except.error (StoreErr.notFound (gs "abc12")) ∧
    getSession store2 (gs "abc12") ≠ Except.ok sessB := by
  decide

/-- C7 (amended): GetSession tries an exact id match first and otherwise
matches the id as a prefix of the id column — zero prefix matches fail
with NotFound, exactly one returns that session, more than one fails with
AmbiguousPrefix; with only `abc00000-…` and `abc11111-…` stored,
GetSession("abc1") returns `abc11111-…`, GetSession("abc12") fails with
NotFound, GetSession("abc") raises AmbiguousPrefix, and the full id
`abc00000-0000-0000-0000-000000000000` resolves exactly. -/
theorem getSession_resolution (sessions : List Session) (id : GoString) :
    (∀ s, getSessionExact sessions id = some s →
      getSession sessions id = Except.ok s) ∧
    (getSessionExact sessions id = none →
      (sessions.filter (fun s => id.isPrefixOf s.id) = [] →
        getSession sessions id = Except.error (StoreErr.notFound id)) ∧
      (∀ s, sessions.filter (fun s => id.isPrefixOf s.id) = [s] →
        getSession sessions id = Except.ok s) ∧
      (2 ≤ (sessions.filter (fun s => id.isPrefixOf s.id)).length →
        getSession sessions id = Except.error (StoreErr.ambiguous id
          (sessions.filter (fun s => id.isPrefixOf s.id)).length))) ∧
    getSession store2 (gs "abc1") = Except.ok sessB ∧
    getSession store2 (gs "abc12") =
      Except.error (StoreErr.notFound (gs "abc12")) ∧
    getSession store2 (gs "abc") =
      Except.error (StoreErr.ambiguous (gs "abc") 2) ∧
    getSession store2 (gs "abc00000-0000-0000-0000-000000000000") =
      Except.ok sessA := by
  refine ⟨?_, ?_, by decide, by decide, by decide, by decide⟩
  · intro s hs
    unfold getSession
    rw [hs]
  · intro hnone
    refine ⟨?_, ?_, ?_⟩
    · intro hfil
      unfold getSession
      rw [hnone, hfil]
    · intro s hfil
      unfold getSession
      rw [hnone, hfil]
    · intro hlen
      unfold getSession
      rw [hnone]
      generalize hfil : sessions.filter (fun s => id.isPrefixOf s.id) = ms
        at hlen ⊢
      cases ms with
      | nil => simp at hlen
      | cons x t =>
        cases t with
        | nil => simp at hlen
        | cons y t2 => rfl

/-- C7 (witness): an id matching nothing fails with NotFound through the
prefix branch. -/
theorem getSession_resolution_witness :
    getSession store2 (gs "zzz") =
      Except.error (StoreErr.notFound (gs "zzz")) :=
  ((getSession_resolution store2 (gs "zzz")).2.1 (by decide)).1 (by decide)

/-- C9: SetSystemPrompt with the empty string leaves the agent completely
unchanged; a non-empty prompt replaces exactly the message at history
index 0, keeping every other history message and every other field
(tools, maxIter, maxTokens, clients, callbacks). -/
theorem setSystemPrompt_frame (a : Agent) (p : GoString) (h0 : Message)
    (rest : List Message) (hp : p ≠ []) (hh : a.history = h0 :: rest) :
    setSystemPrompt a [] = some a ∧
    setSystemPrompt a p =
      some { a with history := SystemMessage p :: rest } := by
  constructor
  · simp [setSystemPrompt]
  · simp [setSystemPrompt, hp, hh]

/-- C9 (witness): instantiation on a fresh agent. -/
theorem setSystemPrompt_frame_witness :
    setSystemPrompt (agentNew 0 [] 5) [] = some (agentNew 0 [] 5) ∧
    setSystemPrompt (agentNew 0 [] 5) (gs "Be terse.") =
      some { agentNew 0 [] 5 with
        history := SystemMessage (gs "Be terse.") :: [] } :=
  setSystemPrompt_frame (agentNew 0 [] 5) (gs "Be terse.")
    (SystemMessage defaultSystemPrompt) [] (by decide) rfl

/-- C10: on any non-empty history Reset yields exactly the one-element
history holding the previous first message; on the empty history —
reachable through the public SetHistory with an empty list — both Reset
(slicing `history[:1]`) and a non-empty SetSystemPrompt (writing
`history[0]`) are out-of-range accesses, modelled `none`, not guarded
errors. -/
theorem reset_empty_panic (a : Agent) (m : Message) (rest : List Message)
    (p : GoString) (hh : a.history = m :: rest) (hp : p ≠ []) :
    reset a = some { a with history := [m] } ∧
    reset (setHistory a []) = none ∧
    setSystemPrompt (setHistory a []) p = none := by
  refine ⟨?_, rfl, ?_⟩
  · simp [reset, hh]
  · simp [setSystemPrompt, setHistory, hp]

/-- C10 (witness): instantiation on a fresh agent. -/
theorem reset_empty_panic_witness :
    reset (agentNew 0 [] 5) =
      some { agentNew 0 [] 5 with
        history := [SystemMessage defaultSystemPrompt] } ∧
    reset (setHistory (agentNew 0 [] 5) []) = none ∧
    setSystemPrompt (setHistory (agentNew 0 [] 5) []) (gs "x") = none :=
  reset_empty_panic (agentNew 0 [] 5) (SystemMessage defaultSystemPrompt) []
    (gs "x") rfl (by decide)

/-- C1 (counterexample): SetHistory is a public Agent operation and
accepts the empty list, after which the history is empty — there is no
system message at position 0, refuting the claim for the SetHistory
operation on a reachable (freshly constructed) agent. -/
theorem agent_setHistory_empty_cex :
    (setHistory (agentNew 0 [] 5) []).history = [] := rfl

/-- C1 (amended): every public Agent operation other than SetHistory —
Run, RunStreaming, SetSystemPrompt, FilterTools, SetMaxTokens, SetClient,
Reset — preserves the invariant that the history is non-empty with a
`system` message first, provided it held before; SetHistory replaces the
history verbatim, so the invariant holds afterwards exactly when the
supplied list is non-empty with a `system` head. -/
theorem agent_ops_history_invariant (a : Agent)
    (hinv : histOk a.history = true)
    (p : GoString) (names : List GoString) (mt : Int) (c : Nat)
    (summarize : Except Unit GoString) (script : List (Except Unit Message))
    (exec : ToolCall → GoString) (u : GoString) (msgs : List Message) :
    (∃ a2, setSystemPrompt a p = some a2 ∧ histOk a2.history = true) ∧
    histOk (filterTools a names).history = true ∧
    histOk (setMaxTokens a mt).history = true ∧
    histOk (setClient a c).history = true ∧
    (∃ a2, reset a = some a2 ∧ histOk a2.history = true) ∧
    histOk (run a summarize script exec u).1.history = true ∧
    histOk (runStreaming a summarize script exec u).1.history = true ∧
    histOk (setHistory a msgs).history = histOk msgs := by
  obtain ⟨m, t, hh, hrole⟩ := histOk_shape a.history hinv
  refine ⟨?_, ?_, ?_, ?_, ?_, ?_, ?_, rfl⟩
  · by_cases hp : p = []
    · refine ⟨a, ?_, hinv⟩
      subst hp
      simp [setSystemPrompt]
    · refine ⟨{ a with history := SystemMessage p :: t }, ?_, ?_⟩
      · simp [setSystemPrompt, hp, hh]
      · simp [histOk, SystemMessage]
  · unfold filterTools
    split
    · exact hinv
    · exact hinv
  · unfold setMaxTokens
    split
    · exact hinv
    · exact hinv
  · exact hinv
  · exact ⟨{ a with history := [m] }, by simp [reset, hh],
      by simp [histOk, hrole]⟩
  · exact run_histOk a summarize script exec u hinv
  · exact run_histOk a summarize script exec u hinv

/-- C1 (witness): the Run conjunct on a fresh agent with a one-step
script. -/
theorem agent_ops_history_invariant_witness :
    histOk (run (agentNew 0 [] 5) (Except.error ())
      [Except.ok (AssistantMessage (gs "pong"))] (fun _ => [])
      (gs "ping")).1.history = true :=
  (agent_ops_history_invariant (agentNew 0 [] 5) (by decide) (gs "x") [] 0 0
    (Except.error ()) [Except.ok (AssistantMessage (gs "pong"))] (fun _ => [])
    (gs "ping") []).2.2.2.2.2.1
